import Mathlib

/-!
Verification development for the batch_scanner repository.

The program's core pipeline (src/batch_scanner.py) is embedded shallowly:

* Python strings are modelled as lists of Unicode code points (List Nat),
  which also covers Python's lone-surrogate strings that Lean's String
  cannot represent.
* generate_collecthw_url models the function of the same name
  (lines 43-51): split on the first hyphen, strip whitespace, UTF-8
  encode (the only step of the try-block that can raise in Python:
  str.encode("utf-8") fails exactly on lone surrogates), base64 encode,
  and substitute into the fixed URL template; the except branch returns
  the literal "Error generating link".
* extract_all_codes models the text-processing part of the function of
  the same name (lines 65-73): re.findall of the fixed pattern
  [A-Z0-9]{5}-[A-Z0-9]{4} over the OCR output text, then
  sorted(list(set(matches))). The OCR invocation itself is an external
  collaborator and enters the model as the text argument.
* save_batch_to_sheet, scanStack and saveAll model the sheet-row
  construction (lines 23-40) and the two Streamlit button handlers
  (lines 91-106 and 120-128) over an explicit session state; the
  external sheet is an oracle (SheetEnv) deciding connection and
  append success.
-/

/-- Code points of a Lean string literal, used to write concrete
Python-string values in the model. -/
def strCodes (s : String) : List Nat := s.data.map Char.toNat

/-- Whitespace set of Python's str.strip (characters whose str.isspace
holds): ASCII whitespace, the C1/Unicode space separators and the
line/paragraph separators. -/
def isPySpace (c : Nat) : Bool :=
  c == 32 || (9 ≤ c && c ≤ 13) || (28 ≤ c && c ≤ 31) || c == 133 || c == 160 ||
  c == 5760 || (8192 ≤ c && c ≤ 8202) || c == 8232 || c == 8233 ||
  c == 8239 || c == 8287 || c == 12288

/-- Python str.strip(): drop leading and trailing whitespace. -/
def pyStrip (l : List Nat) : List Nat :=
  ((l.dropWhile isPySpace).reverse.dropWhile isPySpace).reverse

/-- Model of the expression code.split("-")[0].strip() from
generate_collecthw_url: the part of the code before the first hyphen
(code point 45), with surrounding whitespace removed. -/
def clean_code (code : List Nat) : List Nat :=
  pyStrip (code.takeWhile (fun a => !(a == 45)))

/-- UTF-8 encoding of one code point, as Python's str.encode("utf-8")
performs it: lone surrogates (and values beyond U+10FFFF, which cannot
occur in a Python str) raise, everything else encodes to 1-4 bytes. -/
def utf8EncodeChar (c : Nat) : Option (List Nat) :=
  if c < 128 then some [c]
  else if c < 2048 then some [192 + c / 64, 128 + c % 64]
  else if 55296 ≤ c ∧ c ≤ 57343 then none
  else if c < 65536 then some [224 + c / 4096, 128 + (c / 64) % 64, 128 + c % 64]
  else if c < 1114112 then
    some [240 + c / 262144, 128 + (c / 4096) % 64, 128 + (c / 64) % 64, 128 + c % 64]
  else none

/-- UTF-8 encoding of a whole string; fails iff some code point fails. -/
def utf8Encode : List Nat → Option (List Nat)
  | [] => some []
  | c :: cs =>
    match utf8EncodeChar c, utf8Encode cs with
    | some b, some rest => some (b ++ rest)
    | _, _ => none

/-- Character of the standard base64 alphabet at index n (n < 64). -/
def b64char (n : Nat) : Nat :=
  if n < 26 then 65 + n
  else if n < 52 then 97 + (n - 26)
  else if n < 62 then 48 + (n - 52)
  else if n = 62 then 43
  else 47

/-- Standard base64 encoding of a byte list with padding, as
base64.b64encode produces it. -/
def b64encode : List Nat → List Nat
  | b0 :: b1 :: b2 :: rest =>
    b64char (b0 / 4) :: b64char (b0 % 4 * 16 + b1 / 16) ::
      b64char (b1 % 16 * 4 + b2 / 64) :: b64char (b2 % 64) :: b64encode rest
  | [b0, b1] =>
    [b64char (b0 / 4), b64char (b0 % 4 * 16 + b1 / 16), b64char (b1 % 16 * 4), 61]
  | [b0] => [b64char (b0 / 4), b64char (b0 % 4 * 16), 61, 61]
  | [] => []

/-- Fixed URL template of generate_collecthw_url. -/
def urlTemplate : List Nat := strCodes "https://collecthw.com/hw/search/"

/-- Sentinel string returned by the except branch of
generate_collecthw_url. -/
def errorLink : List Nat := strCodes "Error generating link"

/-- Model of generate_collecthw_url (lines 43-51). Inside the Python
try-block only the encoding step can raise; split, strip, b64encode and
the f-string are total, so the model branches on the encoding result. -/
def generate_collecthw_url (code : List Nat) : List Nat :=
  match utf8Encode (clean_code code) with
  | some bs => urlTemplate ++ b64encode bs
  | none => errorLink

/-- Character class [A-Z0-9] of the code pattern. -/
def isCodeChar (c : Nat) : Bool :=
  (65 ≤ c && c ≤ 90) || (48 ≤ c && c ≤ 57)

/-- Whether the regex [A-Z0-9]{5}-[A-Z0-9]{4} matches at the start of
the text.  The pattern is of fixed length 10 with no backtracking, so a
match at a position is exactly this shape test. -/
def matchHere (t : List Nat) : Bool :=
  match t with
  | c0 :: c1 :: c2 :: c3 :: c4 :: h :: d0 :: d1 :: d2 :: d3 :: _ =>
    isCodeChar c0 && isCodeChar c1 && isCodeChar c2 && isCodeChar c3 &&
      isCodeChar c4 && (h == 45) && isCodeChar d0 && isCodeChar d1 &&
      isCodeChar d2 && isCodeChar d3
  | _ => false

/-- Fuel-indexed scan of re.findall: at each position try the pattern;
on a match keep its 10 characters and resume after them (matches are
non-overlapping), otherwise advance one character. -/
def findallF : Nat → List Nat → List (List Nat)
  | 0, _ => []
  | _ + 1, [] => []
  | fuel + 1, c :: rest =>
    if matchHere (c :: rest) then
      ((c :: rest).take 10) :: findallF fuel (rest.drop 9)
    else findallF fuel rest

/-- Model of re.findall(r'[A-Z0-9]\x7b5\x7d-[A-Z0-9]\x7b4\x7d', text):
all non-overlapping matches, scanning left to right. -/
def findall (t : List Nat) : List (List Nat) := findallF t.length t

/-- Lexicographic comparison of code-point strings, as Python's string
ordering used by sorted(). -/
def lexLe : List Nat → List Nat → Bool
  | [], _ => true
  | _ :: _, [] => false
  | a :: as, b :: bs =>
    if a < b then true else if b < a then false else lexLe as bs

/-- Insert into a lexicographically sorted list. -/
def insertLex (x : List Nat) : List (List Nat) → List (List Nat)
  | [] => [x]
  | y :: ys => if lexLe x y then x :: y :: ys else y :: insertLex x ys

/-- Ascending lexicographic sort (insertion sort); on duplicate-free
input this is the unique ascending enumeration, hence a faithful
denotation of Python's sorted(). -/
def sortLex : List (List Nat) → List (List Nat)
  | [] => []
  | x :: xs => insertLex x (sortLex xs)

/-- Model of the text-processing part of extract_all_codes
(lines 65-73): the regex hunt over the OCR text, then
sorted(list(set(matches))) — duplicates removed, result sorted. -/
def extract_all_codes (text : List Nat) : List (List Nat) :=
  sortLex (findall text).dedup

/-- One entry of the found_cars list: the dictionary
code-link pair built by the Scan Stack handler. -/
structure CarRecord where
  code : List Nat
  link : List Nat
deriving DecidableEq

/-- Session state of the Streamlit app: st.session_state['found_cars']. -/
structure SessionState where
  found_cars : List CarRecord
deriving DecidableEq

/-- Messages returned by save_batch_to_sheet, abstracting the three
literal strings of the source (connection error, success with count,
cloud error). -/
inductive SheetMsg where
  | connectError : SheetMsg
  | added : Nat → SheetMsg
  | cloudError : SheetMsg
deriving DecidableEq

/-- Oracle for the external Google-Sheets collaborator: whether
get_sheet_connection yields a sheet, and whether append_rows on given
rows succeeds or raises. -/
structure SheetEnv where
  connected : Bool
  appendOk : List (List (List Nat)) → Bool

/-- The HYPERLINK cell formula built for one car (line 33). -/
def link_formula (link : List Nat) : List Nat :=
  strCodes "=HYPERLINK(\"" ++ link ++ strCodes "\", \"ID This Car\")"

/-- One sheet row [code, link formula, "Unverified"] (line 34). -/
def row_for (car : CarRecord) : List (List Nat) :=
  [car.code, link_formula car.link, strCodes "Unverified"]

/-- The rows_to_add accumulation loop of save_batch_to_sheet
(lines 29-35), as the source writes it: start from the empty list and
append one row per car. -/
def rows_to_add (car_list : List CarRecord) : List (List (List Nat)) :=
  car_list.foldl (fun acc car => acc ++ [row_for car]) []

/-- Model of save_batch_to_sheet (lines 23-40): fail if no connection,
else build the rows and hand them to append_rows, reporting success
with the row count or the cloud error. -/
def save_batch_to_sheet (env : SheetEnv) (car_list : List CarRecord) :
    Bool × SheetMsg :=
  if env.connected = false then (false, SheetMsg.connectError)
  else if env.appendOk (rows_to_add car_list) then
    (true, SheetMsg.added (rows_to_add car_list).length)
  else (false, SheetMsg.cloudError)

/-- Model of the Scan Stack button handler (lines 91-106): extract the
codes from the OCR text of the uploaded image; if any were found,
overwrite found_cars with the new code-link pairs; otherwise only a
warning is shown and the state is left as it was. -/
def scanStack (text : List Nat) (s : SessionState) : SessionState :=
  let codes := extract_all_codes text
  if codes.isEmpty then s
  else { found_cars := codes.map fun c => { code := c, link := generate_collecthw_url c } }

/-- Model of the Save All button handler (lines 120-128): call
save_batch_to_sheet on the current batch; on success clear found_cars,
on failure keep the state; the flag and message are what the UI shows. -/
def saveAll (env : SheetEnv) (s : SessionState) : SessionState × Bool × SheetMsg :=
  let r := save_batch_to_sheet env s.found_cars
  if r.1 then ({ found_cars := [] }, r) else (s, r)

/-- Concrete sheet oracle where the connection and the append succeed. -/
def envOK : SheetEnv := { connected := true, appendOk := fun _ => true }

/-- Concrete record used as input for witnesses. -/
def carJBC : CarRecord where
  code := strCodes "JBC19-N7C5"
  link := strCodes "https://collecthw.com/hw/search/SkJDMTk="

/-- Concrete one-record session state used as input for witnesses. -/
def s1 : SessionState where
  found_cars := [carJBC]

/-- Unicode scalar values: the code points a well-formed Unicode string
may hold (no lone surrogates), exactly those str.encode("utf-8")
accepts. -/
def isScalarCp (c : Nat) : Bool :=
  c < 55296 || (57343 < c && c < 1114112)

/-- ASCII letters, digits, hyphen and ASCII whitespace, the input
alphabet named by C10. -/
def isAsciiInput (c : Nat) : Bool :=
  (65 ≤ c && c ≤ 90) || (97 ≤ c && c ≤ 122) || (48 ≤ c && c ≤ 57) ||
  c == 45 || c == 32 || (9 ≤ c && c ≤ 13)

/-- Strings that are exactly one code of the fixed 5-hyphen-4 shape. -/
def isCodeShape (c : List Nat) : Bool :=
  matchHere c && (c.length == 10)

/-- The OCR text of the C3 scenario. -/
def scanText : List Nat :=
  strCodes "JBC19-N7C5 random JBC19-N7C5 other HKJ88-X2Z1"

lemma lexLe_total : ∀ a b : List Nat, lexLe a b = true ∨ lexLe b a = true := by
  intro a
  induction a with
  | nil => intro b; exact Or.inl rfl
  | cons x xs ih =>
    intro b
    cases b with
    | nil => exact Or.inr rfl
    | cons y ys =>
      by_cases hxy : x < y
      · exact Or.inl (by simp [lexLe, hxy])
      · by_cases hyx : y < x
        · exact Or.inr (by simp [lexLe, hyx])
        · rcases ih ys with h | h
          · exact Or.inl (by simp [lexLe, hxy, hyx, h])
          · exact Or.inr (by simp [lexLe, hxy, hyx, h])

lemma lexLe_trans : ∀ a b c : List Nat,
    lexLe a b = true → lexLe b c = true → lexLe a c = true := by
  intro a
  induction a with
  | nil => intro b c _ _; rfl
  | cons x xs ih =>
    intro b c hab hbc
    cases b with
    | nil => simp [lexLe] at hab
    | cons y ys =>
      cases c with
      | nil => simp [lexLe] at hbc
      | cons z zs =>
        by_cases hxy : x < y
        · by_cases hyz : y < z
          · simp [lexLe, show x < z by omega]
          · by_cases hzy : z < y
            · simp [lexLe, hyz, hzy] at hbc
            · simp [lexLe, show x < z by omega]
        · by_cases hyx : y < x
          · simp [lexLe, hxy, hyx] at hab
          · have hxy' : x = y := by omega
            subst hxy'
            simp only [lexLe, if_neg (by omega : ¬ x < x)] at hab
            by_cases hxz : x < z
            · simp [lexLe, hxz]
            · by_cases hzx : z < x
              · simp [lexLe, hxz, hzx] at hbc
              · have hxz' : x = z := by omega
                subst hxz'
                simp only [lexLe, if_neg (by omega : ¬ x < x)] at hbc ⊢
                exact ih ys zs hab hbc

lemma insertLex_perm (l : List (List Nat)) (x : List Nat) :
    (insertLex x l).Perm (x :: l) := by
  induction l with
  | nil => exact List.Perm.refl _
  | cons y ys ih =>
    simp only [insertLex]
    by_cases h : lexLe x y = true
    · simp [h]
    · simp only [h, if_false]
      exact (ih.cons y).trans (List.Perm.swap x y ys)

lemma sortLex_perm : ∀ l : List (List Nat), (sortLex l).Perm l := by
  intro l
  induction l with
  | nil => exact List.Perm.refl _
  | cons x xs ih => exact (insertLex_perm (sortLex xs) x).trans (ih.cons x)

lemma insertLex_pairwise (l : List (List Nat)) (x : List Nat)
    (hp : l.Pairwise fun a b => lexLe a b = true) :
    (insertLex x l).Pairwise fun a b => lexLe a b = true := by
  induction l with
  | nil => simp [insertLex]
  | cons y ys ih =>
    rcases List.pairwise_cons.mp hp with ⟨hy, hys⟩
    simp only [insertLex]
    by_cases h : lexLe x y = true
    · simp only [h, if_true]
      refine List.pairwise_cons.mpr ⟨?_, hp⟩
      intro b hb
      rcases List.mem_cons.mp hb with rfl | hb'
      · exact h
      · exact lexLe_trans x y b h (hy b hb')
    · have hyx : lexLe y x = true := (lexLe_total x y).resolve_left h
      simp only [h, if_false]
      refine List.pairwise_cons.mpr ⟨?_, ih hys⟩
      intro b hb
      rcases List.mem_cons.mp ((insertLex_perm ys x).mem_iff.mp hb) with rfl | hb'
      · exact hyx
      · exact hy b hb'

lemma sortLex_pairwise : ∀ l : List (List Nat),
    (sortLex l).Pairwise fun a b => lexLe a b = true := by
  intro l
  induction l with
  | nil => simp [sortLex]
  | cons x xs ih => exact insertLex_pairwise (sortLex xs) x ih

/-- C2: for every OCR text, the extracted code list has no duplicates
and is sorted in ascending lexicographic order. -/
theorem claim_C2_sorted_nodup (text : List Nat) :
    (extract_all_codes text).Nodup ∧
    (extract_all_codes text).Pairwise fun a b => lexLe a b = true := by
  constructor
  · exact (sortLex_perm ((findall text).dedup)).symm.nodup (List.nodup_dedup _)
  · exact sortLex_pairwise _


lemma rows_foldl_append (l : List CarRecord) :
    ∀ acc, l.foldl (fun acc car => acc ++ [row_for car]) acc = acc ++ l.map row_for := by
  induction l with
  | nil => intro acc; simp
  | cons car cars ih => intro acc; simp [List.foldl_cons, ih, List.append_assoc]

lemma rows_to_add_eq_map (l : List CarRecord) : rows_to_add l = l.map row_for := by
  simpa using rows_foldl_append l []

lemma utf8EncodeChar_ascii {c : Nat} (h : c < 128) : utf8EncodeChar c = some [c] := by
  simp [utf8EncodeChar, h]

lemma utf8Encode_ascii : ∀ l : List Nat, (∀ c ∈ l, c < 128) → utf8Encode l = some l := by
  intro l
  induction l with
  | nil => intro _; rfl
  | cons c cs ih =>
    intro h
    have hc : c < 128 := h c (by simp)
    have hcs := ih fun x hx => h x (by simp [hx])
    simp [utf8Encode, utf8EncodeChar_ascii hc, hcs]

lemma utf8EncodeChar_isSome {c : Nat} (h : isScalarCp c = true) :
    ∃ bs, utf8EncodeChar c = some bs := by
  simp only [isScalarCp, Bool.or_eq_true, Bool.and_eq_true, decide_eq_true_eq] at h
  unfold utf8EncodeChar
  split
  · exact ⟨_, rfl⟩
  · split
    · exact ⟨_, rfl⟩
    · split
      · omega
      · split
        · exact ⟨_, rfl⟩
        · split
          · exact ⟨_, rfl⟩
          · omega

lemma utf8Encode_isSome : ∀ l : List Nat, (∀ c ∈ l, isScalarCp c = true) →
    ∃ bs, utf8Encode l = some bs := by
  intro l
  induction l with
  | nil => intro _; exact ⟨[], rfl⟩
  | cons c cs ih =>
    intro h
    obtain ⟨b, hb⟩ := utf8EncodeChar_isSome (h c (by simp))
    obtain ⟨rest, hrest⟩ := ih fun x hx => h x (by simp [hx])
    exact ⟨b ++ rest, by simp [utf8Encode, hb, hrest]⟩

lemma mem_pyStrip {a : Nat} {l : List Nat} (h : a ∈ pyStrip l) : a ∈ l := by
  unfold pyStrip at h
  have h1 := List.mem_reverse.mp h
  have h2 := (List.dropWhile_sublist _).mem h1
  have h3 := List.mem_reverse.mp h2
  exact (List.dropWhile_sublist _).mem h3

lemma mem_clean_code {a : Nat} {code : List Nat} (h : a ∈ clean_code code) :
    a ∈ code :=
  (List.takeWhile_sublist _).mem (mem_pyStrip h)

/-- C1: on every well-formed Unicode input string, generate_link returns
the fixed URL template applied to the standard base64 encoding of the
whitespace-trimmed substring of the code before its first hyphen; in
particular on "JBC19-N7C5" it returns
"https://collecthw.com/hw/search/SkJDMTk=". -/
theorem claim_C1_url_construction :
    (∀ code : List Nat, (∀ c ∈ code, isScalarCp c = true) →
      ∃ bs, utf8Encode (clean_code code) = some bs ∧
        generate_collecthw_url code = urlTemplate ++ b64encode bs) ∧
    generate_collecthw_url (strCodes "JBC19-N7C5") =
      strCodes "https://collecthw.com/hw/search/SkJDMTk=" := by
  constructor
  · intro code h
    obtain ⟨bs, hbs⟩ :=
      utf8Encode_isSome (clean_code code) fun c hc => h c (mem_clean_code hc)
    exact ⟨bs, hbs, by simp [generate_collecthw_url, hbs]⟩
  · decide

/-- Witness for C1 at the scenario input "JBC19-N7C5". -/
theorem claim_C1_witness :
    ∃ bs, utf8Encode (clean_code (strCodes "JBC19-N7C5")) = some bs ∧
      generate_collecthw_url (strCodes "JBC19-N7C5") = urlTemplate ++ b64encode bs :=
  claim_C1_url_construction.1 (strCodes "JBC19-N7C5") (by decide)

/-- C10: for every input over ASCII letters, digits, hyphens and
whitespace, the error branch of generate_link is unreachable: the
result is never the sentinel and always extends the fixed URL
template. -/
theorem claim_C10_no_error_branch (code : List Nat)
    (h : ∀ c ∈ code, isAsciiInput c = true) :
    generate_collecthw_url code ≠ errorLink ∧
    ∃ e, generate_collecthw_url code = urlTemplate ++ e := by
  have hlt : ∀ c ∈ clean_code code, c < 128 := by
    intro c hc
    have hin := h c (mem_clean_code hc)
    simp only [isAsciiInput, Bool.or_eq_true, Bool.and_eq_true,
      decide_eq_true_eq, beq_iff_eq] at hin
    omega
  have henc := utf8Encode_ascii (clean_code code) hlt
  have hgen : generate_collecthw_url code = urlTemplate ++ b64encode (clean_code code) := by
    simp [generate_collecthw_url, henc]
  refine ⟨?_, ⟨_, hgen⟩⟩
  rw [hgen]
  intro heq
  have hlen := congrArg List.length heq
  rw [List.length_append] at hlen
  have h32 : urlTemplate.length = 32 := by decide
  have h21 : errorLink.length = 21 := by decide
  omega

/-- Witness for C10 at the empty string, whose link is the bare
template. -/
theorem claim_C10_witness :
    generate_collecthw_url (strCodes "") ≠ errorLink ∧
    ∃ e, generate_collecthw_url (strCodes "") = urlTemplate ++ e :=
  claim_C10_no_error_branch (strCodes "") (by decide)

/-- C5: generate_link never signals a fault: for every input it returns a
string — always either the sentinel or a string extending the URL
template — and whenever the encoding step fails it returns exactly the
literal "Error generating link" instead of raising. -/
theorem claim_C5_total_error_sentinel (code : List Nat) :
    (generate_collecthw_url code = errorLink ∨
      ∃ e, generate_collecthw_url code = urlTemplate ++ e) ∧
    (utf8Encode (clean_code code) = none → generate_collecthw_url code = errorLink) := by
  constructor
  · cases h : utf8Encode (clean_code code) with
    | none => exact Or.inl (by simp [generate_collecthw_url, h])
    | some bs => exact Or.inr ⟨b64encode bs, by simp [generate_collecthw_url, h]⟩
  · intro h; simp [generate_collecthw_url, h]

/-- Witness for C5 at the one-character string consisting of the lone
surrogate U+D800, on which Python's str.encode("utf-8") raises. -/
theorem claim_C5_witness :
    utf8Encode (clean_code [55296]) = none ∧
      generate_collecthw_url [55296] = errorLink :=
  ⟨by decide, (claim_C5_total_error_sentinel [55296]).2 (by decide)⟩

/-- C7: for every session state with a non-empty batch, the Save All
transition empties the batch when the spreadsheet write succeeds and
leaves it exactly as before when the write fails. -/
theorem claim_C7_save_clears_or_preserves (env : SheetEnv) (s : SessionState)
    (h : s.found_cars ≠ []) :
    ((saveAll env s).2.1 = true → (saveAll env s).1.found_cars = []) ∧
    ((saveAll env s).2.1 = false → (saveAll env s).1.found_cars = s.found_cars) := by
  unfold saveAll
  cases hr : (save_batch_to_sheet env s.found_cars).1 <;> simp [hr]

/-- Witness for C7: with a connected sheet and a successful append, the
one-record batch is cleared by Save All. -/
theorem claim_C7_witness :
    s1.found_cars ≠ [] ∧ (saveAll envOK s1).1.found_cars = [] :=
  ⟨by decide, (claim_C7_save_clears_or_preserves envOK s1 (by decide)).1 (by decide)⟩

/-- C8 counterexample: with a non-empty prior batch and an OCR text in
which extraction finds nothing, the Scan Stack handler keeps the prior
batch instead of replacing it with the empty extraction result, so the
claim's "including the empty result" case fails on the code. -/
theorem claim_C8_counterexample :
    extract_all_codes (strCodes "no codes here") = [] ∧
    scanStack (strCodes "no codes here") s1 = s1 ∧
    s1.found_cars ≠ [] ∧
    (scanStack (strCodes "no codes here") s1).found_cars ≠
      (extract_all_codes (strCodes "no codes here")).map
        (fun c => { code := c, link := generate_collecthw_url c }) :=
  ⟨by decide, by decide, by decide, by decide⟩

/-- C8 (amended): a scan replaces the batch wholesale with the pairs
built from the extraction result whenever that result is non-empty;
when extraction finds no codes the handler leaves the session state
unchanged, keeping any prior unsaved batch. -/
theorem claim_C8_scan_replaces (text : List Nat) (s : SessionState) :
    (extract_all_codes text ≠ [] →
      (scanStack text s).found_cars =
        (extract_all_codes text).map
          fun c => { code := c, link := generate_collecthw_url c }) ∧
    (extract_all_codes text = [] → scanStack text s = s) := by
  unfold scanStack
  cases h : extract_all_codes text with
  | nil => simp [h]
  | cons a as => simp [h]

/-- Witness for C8 at a one-code text and a non-empty prior batch: the
prior record is discarded and the batch holds exactly the new pair. -/
theorem claim_C8_witness :
    (scanStack (strCodes "HKJ88-X2Z1") s1).found_cars =
      (extract_all_codes (strCodes "HKJ88-X2Z1")).map
        (fun c => { code := c, link := generate_collecthw_url c }) :=
  (claim_C8_scan_replaces (strCodes "HKJ88-X2Z1") s1).1 (by decide)

/-- C9: the rows handed to the spreadsheet collaborator have exactly one
row per record, in batch order, each row being the record's code, the
HYPERLINK formula targeting the record's link with label "ID This Car",
and the literal "Unverified". -/
theorem claim_C9_rows_shape (car_list : List CarRecord) :
    (rows_to_add car_list).length = car_list.length ∧
    ∀ i (h : i < car_list.length),
      (rows_to_add car_list)[i]? =
        some [(car_list.get ⟨i, h⟩).code,
          strCodes "=HYPERLINK(\"" ++ (car_list.get ⟨i, h⟩).link ++
            strCodes "\", \"ID This Car\")",
          strCodes "Unverified"] := by
  rw [rows_to_add_eq_map]
  refine ⟨by simp, ?_⟩
  intro i h
  rw [List.getElem?_map, List.getElem?_eq_getElem h]
  simp [row_for, link_formula]

/-- Witness for C9 on the concrete one-record batch. -/
theorem claim_C9_witness :
    (rows_to_add s1.found_cars).length = s1.found_cars.length ∧
    (rows_to_add s1.found_cars)[0]? =
      some [strCodes "JBC19-N7C5",
        strCodes "=HYPERLINK(\"https://collecthw.com/hw/search/SkJDMTk=\", \"ID This Car\")",
        strCodes "Unverified"] :=
  ⟨(claim_C9_rows_shape s1.found_cars).1,
    ((claim_C9_rows_shape s1.found_cars).2 0 (by decide)).trans (by decide)⟩

lemma findallF_congr : ∀ (f1 f2 : Nat) (t : List Nat),
    t.length ≤ f1 → t.length ≤ f2 → findallF f1 t = findallF f2 t := by
  intro f1
  induction f1 with
  | zero =>
    intro f2 t h1 _
    have ht : t = [] := List.eq_nil_of_length_eq_zero (Nat.le_zero.mp h1)
    subst ht
    cases f2 <;> rfl
  | succ n ih =>
    intro f2 t h1 h2
    cases t with
    | nil => cases f2 <;> rfl
    | cons c rest =>
      cases f2 with
      | zero => simp at h2
      | succ m =>
        simp only [List.length_cons] at h1 h2
        simp only [findallF]
        by_cases hm : matchHere (c :: rest) = true
        · simp only [hm, if_true]
          congr 1
          exact ih m (rest.drop 9) (by rw [List.length_drop]; omega)
            (by rw [List.length_drop]; omega)
        · simp only [hm, if_false]
          exact ih m rest (by omega) (by omega)

lemma findall_cons (c : Nat) (rest : List Nat) :
    findall (c :: rest) =
      if matchHere (c :: rest) then
        ((c :: rest).take 10) :: findall (rest.drop 9)
      else findall rest := by
  unfold findall
  simp only [List.length_cons, findallF]
  by_cases hm : matchHere (c :: rest) = true
  · simp only [hm, if_true]
    congr 1
    exact findallF_congr rest.length (rest.drop 9).length (rest.drop 9)
      (by rw [List.length_drop]; omega) (le_refl _)
  · simp [hm]

lemma matchHere_shape {u : List Nat} (h : matchHere u = true) :
    ∃ a0 a1 a2 a3 a4 b0 b1 b2 b3 rest,
      u = a0 :: a1 :: a2 :: a3 :: a4 :: 45 :: b0 :: b1 :: b2 :: b3 :: rest ∧
      isCodeChar a0 = true ∧ isCodeChar a1 = true ∧ isCodeChar a2 = true ∧
      isCodeChar a3 = true ∧ isCodeChar a4 = true ∧ isCodeChar b0 = true ∧
      isCodeChar b1 = true ∧ isCodeChar b2 = true ∧ isCodeChar b3 = true := by
  rcases u with _ | ⟨a0, u⟩; · simp [matchHere] at h
  rcases u with _ | ⟨a1, u⟩; · simp [matchHere] at h
  rcases u with _ | ⟨a2, u⟩; · simp [matchHere] at h
  rcases u with _ | ⟨a3, u⟩; · simp [matchHere] at h
  rcases u with _ | ⟨a4, u⟩; · simp [matchHere] at h
  rcases u with _ | ⟨m5, u⟩; · simp [matchHere] at h
  rcases u with _ | ⟨b0, u⟩; · simp [matchHere] at h
  rcases u with _ | ⟨b1, u⟩; · simp [matchHere] at h
  rcases u with _ | ⟨b2, u⟩; · simp [matchHere] at h
  rcases u with _ | ⟨b3, rest⟩; · simp [matchHere] at h
  simp only [matchHere, Bool.and_eq_true, beq_iff_eq] at h
  obtain ⟨⟨⟨⟨⟨⟨⟨⟨⟨h0, h1⟩, h2⟩, h3⟩, h4⟩, h5⟩, g0⟩, g1⟩, g2⟩, g3⟩ := h
  subst h5
  exact ⟨a0, a1, a2, a3, a4, b0, b1, b2, b3, rest, rfl,
    h0, h1, h2, h3, h4, g0, g1, g2, g3⟩

lemma findall_mem_shape : ∀ (n : Nat) (t : List Nat), t.length ≤ n →
    ∀ c ∈ findall t, ∃ a0 a1 a2 a3 a4 b0 b1 b2 b3,
      c = [a0, a1, a2, a3, a4, 45, b0, b1, b2, b3] ∧
      isCodeChar a0 = true ∧ isCodeChar a1 = true ∧ isCodeChar a2 = true ∧
      isCodeChar a3 = true ∧ isCodeChar a4 = true ∧ isCodeChar b0 = true ∧
      isCodeChar b1 = true ∧ isCodeChar b2 = true ∧ isCodeChar b3 = true := by
  intro n
  induction n with
  | zero =>
    intro t ht c hc
    have h0 : t = [] := List.eq_nil_of_length_eq_zero (Nat.le_zero.mp ht)
    subst h0
    simp [findall, findallF] at hc
  | succ n ih =>
    intro t ht c hc
    cases t with
    | nil => simp [findall, findallF] at hc
    | cons x rest =>
      simp only [List.length_cons] at ht
      rw [findall_cons] at hc
      by_cases hm : matchHere (x :: rest) = true
      · rw [if_pos hm] at hc
        rcases List.mem_cons.mp hc with rfl | hc'
        · obtain ⟨a0, a1, a2, a3, a4, b0, b1, b2, b3, rest', heq,
            p0, p1, p2, p3, p4, q0, q1, q2, q3⟩ := matchHere_shape hm
          rw [heq]
          exact ⟨a0, a1, a2, a3, a4, b0, b1, b2, b3, rfl,
            p0, p1, p2, p3, p4, q0, q1, q2, q3⟩
        · exact ih (rest.drop 9) (by rw [List.length_drop]; omega) c hc'
      · rw [if_neg hm] at hc
        exact ih rest (by omega) c hc

lemma findall_complete : ∀ (n : Nat) (t : List Nat) (i : Nat), t.length ≤ n →
    matchHere (t.drop i) = true →
    ∃ j, j ≤ i ∧ i < j + 10 ∧ matchHere (t.drop j) = true ∧
      (t.drop j).take 10 ∈ findall t := by
  intro n
  induction n with
  | zero =>
    intro t i ht hm
    have h0 : t = [] := List.eq_nil_of_length_eq_zero (Nat.le_zero.mp ht)
    subst h0
    simp [List.drop_nil, matchHere] at hm
  | succ n ih =>
    intro t i ht hm
    cases t with
    | nil => simp [List.drop_nil, matchHere] at hm
    | cons x rest =>
      simp only [List.length_cons] at ht
      by_cases hmh : matchHere (x :: rest) = true
      · by_cases hi : i < 10
        · refine ⟨0, Nat.zero_le _, by omega, by simpa using hmh, ?_⟩
          rw [List.drop_zero, findall_cons, if_pos hmh]
          exact List.mem_cons_self _ _
        · have hdrop : (x :: rest).drop i = (rest.drop 9).drop (i - 10) := by
            obtain ⟨k, rfl⟩ : ∃ k, i = k + 1 := ⟨i - 1, by omega⟩
            rw [List.drop_succ_cons, List.drop_drop]
            congr 1
            omega
          rw [hdrop] at hm
          obtain ⟨j', hj1, hj2, hj3, hj4⟩ :=
            ih (rest.drop 9) (i - 10) (by rw [List.length_drop]; omega) hm
          have hstep : (x :: rest).drop (j' + 10) = (rest.drop 9).drop j' := by
            rw [show j' + 10 = (j' + 9) + 1 by omega, List.drop_succ_cons,
              List.drop_drop]
            congr 1
            omega
          refine ⟨j' + 10, by omega, by omega, ?_, ?_⟩
          · rw [hstep]; exact hj3
          · rw [hstep, findall_cons, if_pos hmh]
            exact List.mem_cons_of_mem _ hj4
      · cases i with
        | zero =>
          rw [List.drop_zero] at hm
          exact absurd hm hmh
        | succ k =>
          rw [List.drop_succ_cons] at hm
          obtain ⟨j', hj1, hj2, hj3, hj4⟩ := ih rest k (by omega) hm
          refine ⟨j' + 1, by omega, by omega, ?_, ?_⟩
          · rw [List.drop_succ_cons]; exact hj3
          · rw [List.drop_succ_cons, findall_cons, if_neg hmh]
            exact hj4

/-- C3: the pattern scan finds every non-overlapping occurrence of the
5-hyphen-4 shape — every position where the pattern matches overlaps
some reported match — and on the scenario text the extracted codes are
exactly ["HKJ88-X2Z1", "JBC19-N7C5"]. -/
theorem claim_C3_finds_all_occurrences :
    extract_all_codes scanText = [strCodes "HKJ88-X2Z1", strCodes "JBC19-N7C5"] ∧
    ∀ (t : List Nat) (i : Nat), matchHere (t.drop i) = true →
      ∃ j, j ≤ i ∧ i < j + 10 ∧ matchHere (t.drop j) = true ∧
        (t.drop j).take 10 ∈ findall t := by
  refine ⟨by decide, ?_⟩
  intro t i hm
  exact findall_complete t.length t i (le_refl _) hm

/-- Witness for C3 at position 18 of the scenario text, the second
occurrence of "JBC19-N7C5". -/
theorem claim_C3_witness :
    ∃ j, j ≤ 18 ∧ 18 < j + 10 ∧ matchHere (scanText.drop j) = true ∧
      (scanText.drop j).take 10 ∈ findall scanText :=
  claim_C3_finds_all_occurrences.2 scanText 18 (by decide)

lemma isCodeChar_beq45 {a : Nat} (h : isCodeChar a = true) : (a == 45) = false := by
  simp only [isCodeChar, Bool.or_eq_true, Bool.and_eq_true, decide_eq_true_eq] at h
  simp only [beq_eq_false_iff_ne, ne_eq]
  omega

/-- C4: every code in the extraction output has length 10, its single
hyphen at position 5, and uppercase letters or digits everywhere else. -/
theorem claim_C4_code_invariant (t : List Nat) (cd : List Nat)
    (hc : cd ∈ extract_all_codes t) :
    cd.length = 10 ∧ cd[5]? = some 45 ∧ cd.count 45 = 1 ∧
    ∀ i, i < 10 → i ≠ 5 → ∃ a, cd[i]? = some a ∧ isCodeChar a = true := by
  have hmem : cd ∈ findall t :=
    List.mem_dedup.mp ((sortLex_perm ((findall t).dedup)).mem_iff.mp hc)
  obtain ⟨a0, a1, a2, a3, a4, b0, b1, b2, b3, rfl,
    p0, p1, p2, p3, p4, q0, q1, q2, q3⟩ :=
    findall_mem_shape t.length t (le_refl _) cd hmem
  refine ⟨rfl, rfl, ?_, ?_⟩
  · simp [List.count_cons, isCodeChar_beq45 p0, isCodeChar_beq45 p1,
      isCodeChar_beq45 p2, isCodeChar_beq45 p3, isCodeChar_beq45 p4,
      isCodeChar_beq45 q0, isCodeChar_beq45 q1, isCodeChar_beq45 q2,
      isCodeChar_beq45 q3]
  · intro i hi10 hi5
    interval_cases i
    · exact ⟨a0, rfl, p0⟩
    · exact ⟨a1, rfl, p1⟩
    · exact ⟨a2, rfl, p2⟩
    · exact ⟨a3, rfl, p3⟩
    · exact ⟨a4, rfl, p4⟩
    · exact absurd rfl hi5
    · exact ⟨b0, rfl, q0⟩
    · exact ⟨b1, rfl, q1⟩
    · exact ⟨b2, rfl, q2⟩
    · exact ⟨b3, rfl, q3⟩

/-- Witness for C4 at the code "HKJ88-X2Z1" extracted from the scenario
text. -/
theorem claim_C4_witness :
    (strCodes "HKJ88-X2Z1").length = 10 ∧
    (strCodes "HKJ88-X2Z1")[5]? = some 45 ∧
    (strCodes "HKJ88-X2Z1").count 45 = 1 :=
  ⟨(claim_C4_code_invariant scanText (strCodes "HKJ88-X2Z1") (by decide)).1,
   (claim_C4_code_invariant scanText (strCodes "HKJ88-X2Z1") (by decide)).2.1,
   (claim_C4_code_invariant scanText (strCodes "HKJ88-X2Z1") (by decide)).2.2.1⟩

lemma isCodeChar_lt128 {a : Nat} (h : isCodeChar a = true) : a < 128 := by
  simp only [isCodeChar, Bool.or_eq_true, Bool.and_eq_true, decide_eq_true_eq] at h
  omega

lemma isCodeChar_not_space {a : Nat} (h : isCodeChar a = true) :
    isPySpace a = false := by
  cases hsp : isPySpace a
  · rfl
  · exfalso
    simp only [isCodeChar, Bool.or_eq_true, Bool.and_eq_true, decide_eq_true_eq] at h
    simp only [isPySpace, Bool.or_eq_true, Bool.and_eq_true, decide_eq_true_eq,
      beq_iff_eq] at hsp
    omega

lemma takeWhile_code5 (a0 a1 a2 a3 a4 : Nat) (tail : List Nat)
    (p0 : isCodeChar a0 = true) (p1 : isCodeChar a1 = true)
    (p2 : isCodeChar a2 = true) (p3 : isCodeChar a3 = true)
    (p4 : isCodeChar a4 = true) :
    (a0 :: a1 :: a2 :: a3 :: a4 :: 45 :: tail).takeWhile (fun a => !(a == 45)) =
      [a0, a1, a2, a3, a4] := by
  simp [List.takeWhile_cons, isCodeChar_beq45 p0, isCodeChar_beq45 p1,
    isCodeChar_beq45 p2, isCodeChar_beq45 p3, isCodeChar_beq45 p4]

lemma pyStrip_code5 (a0 a1 a2 a3 a4 : Nat)
    (p0 : isCodeChar a0 = true) (p1 : isCodeChar a1 = true)
    (p2 : isCodeChar a2 = true) (p3 : isCodeChar a3 = true)
    (p4 : isCodeChar a4 = true) :
    pyStrip [a0, a1, a2, a3, a4] = [a0, a1, a2, a3, a4] := by
  simp [pyStrip, List.dropWhile_cons, isCodeChar_not_space p0,
    isCodeChar_not_space p1, isCodeChar_not_space p2, isCodeChar_not_space p3,
    isCodeChar_not_space p4]

lemma clean_code_shape (a0 a1 a2 a3 a4 : Nat) (tail : List Nat)
    (p0 : isCodeChar a0 = true) (p1 : isCodeChar a1 = true)
    (p2 : isCodeChar a2 = true) (p3 : isCodeChar a3 = true)
    (p4 : isCodeChar a4 = true) :
    clean_code (a0 :: a1 :: a2 :: a3 :: a4 :: 45 :: tail) = [a0, a1, a2, a3, a4] := by
  rw [clean_code, takeWhile_code5 a0 a1 a2 a3 a4 tail p0 p1 p2 p3 p4,
    pyStrip_code5 a0 a1 a2 a3 a4 p0 p1 p2 p3 p4]

lemma gen_code_shape (a0 a1 a2 a3 a4 : Nat) (tail : List Nat)
    (p0 : isCodeChar a0 = true) (p1 : isCodeChar a1 = true)
    (p2 : isCodeChar a2 = true) (p3 : isCodeChar a3 = true)
    (p4 : isCodeChar a4 = true) :
    generate_collecthw_url (a0 :: a1 :: a2 :: a3 :: a4 :: 45 :: tail) =
      urlTemplate ++ b64encode [a0, a1, a2, a3, a4] := by
  have hascii : ∀ x ∈ [a0, a1, a2, a3, a4], x < 128 := by
    intro x hx
    simp only [List.mem_cons, List.not_mem_nil, or_false] at hx
    rcases hx with rfl | rfl | rfl | rfl | rfl
    · exact isCodeChar_lt128 p0
    · exact isCodeChar_lt128 p1
    · exact isCodeChar_lt128 p2
    · exact isCodeChar_lt128 p3
    · exact isCodeChar_lt128 p4
  have henc := utf8Encode_ascii [a0, a1, a2, a3, a4] hascii
  simp [generate_collecthw_url, clean_code_shape a0 a1 a2 a3 a4 tail p0 p1 p2 p3 p4,
    henc]

lemma b64char_inj : ∀ x, x < 64 → ∀ y, y < 64 → b64char x = b64char y → x = y := by
  decide

lemma b64encode5_inj (x0 x1 x2 x3 x4 y0 y1 y2 y3 y4 : Nat)
    (hx0 : x0 < 256) (hx1 : x1 < 256) (hx2 : x2 < 256) (hx3 : x3 < 256)
    (hx4 : x4 < 256) (hy0 : y0 < 256) (hy1 : y1 < 256) (hy2 : y2 < 256)
    (hy3 : y3 < 256) (hy4 : y4 < 256)
    (heq : b64encode [x0, x1, x2, x3, x4] = b64encode [y0, y1, y2, y3, y4]) :
    [x0, x1, x2, x3, x4] = [y0, y1, y2, y3, y4] := by
  simp only [b64encode, List.cons.injEq, and_true] at heq
  obtain ⟨e0, e1, e2, e3, e4, e5, e6⟩ := heq
  have g0 := b64char_inj _ (by omega) _ (by omega) e0
  have g1 := b64char_inj _ (by omega) _ (by omega) e1
  have g2 := b64char_inj _ (by omega) _ (by omega) e2
  have g3 := b64char_inj _ (by omega) _ (by omega) e3
  have g4 := b64char_inj _ (by omega) _ (by omega) e4
  have g5 := b64char_inj _ (by omega) _ (by omega) e5
  have g6 := b64char_inj _ (by omega) _ (by omega) e6
  simp only [List.cons.injEq, and_true]
  exact ⟨by omega, by omega, by omega, by omega, by omega⟩

lemma isCodeShape_struct {cs : List Nat} (h : isCodeShape cs = true) :
    ∃ a0 a1 a2 a3 a4 b0 b1 b2 b3,
      cs = [a0, a1, a2, a3, a4, 45, b0, b1, b2, b3] ∧
      isCodeChar a0 = true ∧ isCodeChar a1 = true ∧ isCodeChar a2 = true ∧
      isCodeChar a3 = true ∧ isCodeChar a4 = true ∧ isCodeChar b0 = true ∧
      isCodeChar b1 = true ∧ isCodeChar b2 = true ∧ isCodeChar b3 = true := by
  simp only [isCodeShape, Bool.and_eq_true, beq_iff_eq] at h
  obtain ⟨hm, hlen⟩ := h
  obtain ⟨a0, a1, a2, a3, a4, b0, b1, b2, b3, rest, heq,
    p0, p1, p2, p3, p4, q0, q1, q2, q3⟩ := matchHere_shape hm
  subst heq
  have hrest : rest = [] := by
    simp only [List.length_cons] at hlen
    exact List.eq_nil_of_length_eq_zero (by omega)
  subst hrest
  exact ⟨a0, a1, a2, a3, a4, b0, b1, b2, b3, rfl,
    p0, p1, p2, p3, p4, q0, q1, q2, q3⟩

/-- C6: generate_link is deterministic, and on codes of the fixed
5-hyphen-4 pattern it is injective over the part before the first
hyphen: equal parts give equal links, different parts give different
links. -/
theorem claim_C6_deterministic_injective :
    (∀ code : List Nat, generate_collecthw_url code = generate_collecthw_url code) ∧
    ∀ c1 c2 : List Nat, isCodeShape c1 = true → isCodeShape c2 = true →
      ((c1.takeWhile fun a => !(a == 45)) = (c2.takeWhile fun a => !(a == 45)) →
        generate_collecthw_url c1 = generate_collecthw_url c2) ∧
      ((c1.takeWhile fun a => !(a == 45)) ≠ (c2.takeWhile fun a => !(a == 45)) →
        generate_collecthw_url c1 ≠ generate_collecthw_url c2) := by
  refine ⟨fun _ => rfl, ?_⟩
  intro c1 c2 h1 h2
  obtain ⟨a0, a1, a2, a3, a4, b0, b1, b2, b3, rfl,
    p0, p1, p2, p3, p4, _, _, _, _⟩ := isCodeShape_struct h1
  obtain ⟨x0, x1, x2, x3, x4, y0, y1, y2, y3, rfl,
    r0, r1, r2, r3, r4, _, _, _, _⟩ := isCodeShape_struct h2
  have tw1 := takeWhile_code5 a0 a1 a2 a3 a4 [b0, b1, b2, b3] p0 p1 p2 p3 p4
  have tw2 := takeWhile_code5 x0 x1 x2 x3 x4 [y0, y1, y2, y3] r0 r1 r2 r3 r4
  have g1 := gen_code_shape a0 a1 a2 a3 a4 [b0, b1, b2, b3] p0 p1 p2 p3 p4
  have g2 := gen_code_shape x0 x1 x2 x3 x4 [y0, y1, y2, y3] r0 r1 r2 r3 r4
  constructor
  · intro heq
    rw [tw1, tw2] at heq
    rw [g1, g2, heq]
  · intro hne heq
    rw [g1, g2] at heq
    have hb := List.append_cancel_left heq
    have hxy := b64encode5_inj a0 a1 a2 a3 a4 x0 x1 x2 x3 x4
      (by have := isCodeChar_lt128 p0; omega) (by have := isCodeChar_lt128 p1; omega)
      (by have := isCodeChar_lt128 p2; omega) (by have := isCodeChar_lt128 p3; omega)
      (by have := isCodeChar_lt128 p4; omega) (by have := isCodeChar_lt128 r0; omega)
      (by have := isCodeChar_lt128 r1; omega) (by have := isCodeChar_lt128 r2; omega)
      (by have := isCodeChar_lt128 r3; omega) (by have := isCodeChar_lt128 r4; omega)
      hb
    exact hne (by rw [tw1, tw2, hxy])

/-- Witness for C6: same part before the hyphen gives the same link,
different parts give different links, at three concrete codes. -/
theorem claim_C6_witness :
    generate_collecthw_url (strCodes "JBC19-N7C5") =
      generate_collecthw_url (strCodes "JBC19-AAAA") ∧
    generate_collecthw_url (strCodes "JBC19-N7C5") ≠
      generate_collecthw_url (strCodes "HKJ88-X2Z1") :=
  ⟨(claim_C6_deterministic_injective.2 (strCodes "JBC19-N7C5")
      (strCodes "JBC19-AAAA") (by decide) (by decide)).1 (by decide),
   (claim_C6_deterministic_injective.2 (strCodes "JBC19-N7C5")
      (strCodes "HKJ88-X2Z1") (by decide) (by decide)).2 (by decide)⟩
